import Mathlib

/-!
Shallow embedding of four resource files of the `terraform-provider-aws`
repository:

* `internal/service/macie2/organization_admin_account.go` (Macie
  organization admin account resource),
* the Lex V2 models slot resource (`resourceSlot`, `findSlotByID`,
  `slotHasChanges`),
* the Grafana workspace SAML configuration resource
  (`resourceWorkspaceSamlConfigurationUpsert` / `Read` / `Delete`).

Handlers are modelled as pure functions of the Terraform plan/state data
and of oracles describing the responses the AWS API gives to each call.
Errors returned by AWS are values carrying a code and a message, matching
how `tfawserr.ErrCodeEquals` and `tfawserr.ErrMessageContains` inspect
them.  Go pointers that may be nil are `Option`s, and a nil-pointer
dereference is an explicit `panic` outcome.
-/

namespace TfAws

/-- An AWS API error as observed by the helpers `tfawserr.ErrCodeEquals`
and `tfawserr.ErrMessageContains`: an error code and a message. -/
structure ApiError where
  code : String
  message : String
deriving DecidableEq, Repr

/-- `startsWithChars s pat` is Go's `strings.HasPrefix` on rune lists:
`pat` is a prefix of `s`. -/
def startsWithChars : List Char → List Char → Bool
  | _, [] => true
  | [], _ :: _ => false
  | c :: s, p :: ps => c = p && startsWithChars s ps

/-- `hasSubChars pat s` decides whether `pat` occurs contiguously in `s`. -/
def hasSubChars (pat : List Char) : List Char → Bool
  | [] => startsWithChars [] pat
  | c :: s => startsWithChars (c :: s) pat || hasSubChars pat s

/-- Go's `strings.Contains s pat` on the underlying character lists. -/
def strContains (s pat : String) : Bool :=
  hasSubChars pat.toList s.toList

/-- `tfawserr.ErrMessageContains err code msg`: the error's code equals
`code` and its message contains `msg` as a substring. -/
def errMessageContains (e : ApiError) (code msg : String) : Bool :=
  e.code = code && strContains e.message msg

/-- Which of the four CRUD handlers a resource definition registers. -/
structure RegisteredHandlers where
  hasCreate : Bool
  hasRead : Bool
  hasUpdate : Bool
  hasDelete : Bool
deriving DecidableEq, Repr

/-- A resource definition registers all four CRUD handlers. -/
def RegisteredHandlers.allCrud (h : RegisteredHandlers) : Prop :=
  h.hasCreate = true ∧ h.hasRead = true ∧ h.hasUpdate = true ∧ h.hasDelete = true

instance (h : RegisteredHandlers) : Decidable h.allCrud := by
  unfold RegisteredHandlers.allCrud
  infer_instance

namespace Macie

/-- `awstypes.ErrorCodeClientError` of the Macie2 SDK. -/
def errorCodeClientError : String := "ClientError"

/-- `awstypes.ErrCodeAccessDeniedException` of the Macie2 SDK. -/
def errCodeAccessDeniedException : String := "AccessDeniedException"

/-- The error code carried by `awstypes.ResourceNotFoundException`
(matched by `errs.IsA[*awstypes.ResourceNotFoundException]`). -/
def errCodeResourceNotFoundException : String := "ResourceNotFoundException"

/-- The `4 * time.Minute` timeout handed to `retry.RetryContext` in
`resourceOrganizationAdminAccountCreate`. -/
def retryTimeoutMinutes : Nat := 4

/-- Outcome of `retry.RetryContext`: success, a non-retryable error, or a
timeout once the deadline is reached.  Each constructor records how many
calls to the retried function have been made in total. -/
inductive RetryResult where
  | success (calls : Nat)
  | failure (e : ApiError) (calls : Nat)
  | timeout (calls : Nat)
deriving DecidableEq, Repr

/-- Number of calls made by the retry loop. -/
def RetryResult.calls : RetryResult → Nat
  | .success n => n
  | .failure _ n => n
  | .timeout n => n

/-- The `retry.RetryContext(ctx, 4*time.Minute, ...)` loop of
`resourceOrganizationAdminAccountCreate`.  `resp k` is the response AWS
gives to the `k`-th `EnableOrganizationAdminAccount` call (`none` is
success).  The 4-minute window is abstracted into `fuel`, the number of
attempts that fit before the deadline; real time is not modelled.  As in
the source, an error is retried exactly when its code equals
`awstypes.ErrorCodeClientError`, any other error is returned at once as
non-retryable, and a nil error stops the loop with success. -/
def retryEnable (resp : Nat → Option ApiError) : Nat → Nat → RetryResult
  | 0, k => .timeout k
  | fuel + 1, k =>
    match resp k with
    | none => .success (k + 1)
    | some e =>
      if e.code = errorCodeClientError then retryEnable resp fuel (k + 1)
      else .failure e (k + 1)

/-- The `macie2.EnableOrganizationAdminAccountInput` built by the Create
handler: the admin account id from configuration and a fresh
`id.UniqueId()` client token. -/
structure EnableInput where
  adminAccountId : String
  clientToken : String
deriving DecidableEq, Repr

/-- A `.AdminAccount` returned by `GetOrganizationAdminAccount` (its
`AccountId` pointer may be nil). -/
structure AdminAccount where
  accountId : Option String
deriving DecidableEq, Repr

/-- Outcome of the Create handler, as visible in the diagnostics and the
Terraform state. -/
inductive CreateOutcome where
  /-- `sdkdiag.AppendErrorf(diags, "creating Macie OrganizationAdminAccount ...")`;
  the resource id was never set. -/
  | createError (e : ApiError)
  /-- the embedded Read errored after `d.SetId` succeeded. -/
  | readError (e : ApiError)
  /-- the embedded Read found no matching admin account on a new resource
  and appended `&retry.NotFoundError{}`. -/
  | readNotFound
  /-- success: `d.SetId(adminAccountID)` and
  `d.Set("admin_account_id", res.AccountId)`. -/
  | ok (adminAccountAttr : Option String)
deriving DecidableEq, Repr

/-- A whole run of `resourceOrganizationAdminAccountCreate`: the (single)
`EnableOrganizationAdminAccountInput` value it builds, how many
`EnableOrganizationAdminAccount` calls it issued, and the outcome. -/
structure CreateRun where
  input : EnableInput
  enableCalls : Nat
  outcome : CreateOutcome
deriving DecidableEq, Repr

/-- The tail of `resourceOrganizationAdminAccountCreate` after the Enable
calls succeeded: `d.SetId(adminAccountID)` followed by
`resourceOrganizationAdminAccountRead` with `d.IsNewResource() = true`.
`get` is the result of `GetOrganizationAdminAccount`.  On a new resource
the not-found removal branch of Read is skipped, so an error becomes an
error diagnostic, a nil result becomes `&retry.NotFoundError{}`, and
otherwise `admin_account_id` is set from the account. -/
def createFinish (input : EnableInput) (calls : Nat)
    (get : Except ApiError (Option AdminAccount)) : CreateRun :=
  match get with
  | .error e => ⟨input, calls, .readError e⟩
  | .ok none => ⟨input, calls, .readNotFound⟩
  | .ok (some a) => ⟨input, calls, .ok a.accountId⟩

/-- `resourceOrganizationAdminAccountCreate`.  `uniqueId` is the value
`id.UniqueId()` produced in this run, `resp` the per-call responses to
`EnableOrganizationAdminAccount`, `fuel` the number of attempts fitting in
the 4-minute retry window, `get` the `GetOrganizationAdminAccount` result
used by the trailing Read, `acct` the configured `admin_account_id`.
When the retry loop times out (`tfresource.TimedOut`), exactly one further
`EnableOrganizationAdminAccount` call is made and any error from it is
reported as a creation error. -/
def organizationAdminAccountCreate (uniqueId : String)
    (resp : Nat → Option ApiError) (fuel : Nat)
    (get : Except ApiError (Option AdminAccount)) (acct : String) : CreateRun :=
  let input : EnableInput := ⟨acct, uniqueId⟩
  match retryEnable resp fuel 0 with
  | .success n => createFinish input n get
  | .failure e n => ⟨input, n, .createError e⟩
  | .timeout n =>
    match resp n with
    | none => createFinish input (n + 1) get
    | some e => ⟨input, n + 1, .createError e⟩

/-- `resourceOrganizationAdminAccountDelete`: issues
`DisableOrganizationAdminAccount` (`resp` is its response) and returns
`true` exactly when no error diagnostic is appended: either the call
succeeded, or it failed with `ResourceNotFoundException`, or with
`AccessDeniedException` whose message contains "Macie is not enabled". -/
def organizationAdminAccountDelete (resp : Option ApiError) : Bool :=
  match resp with
  | none => true
  | some e =>
    if e.code = errCodeResourceNotFoundException
        || errMessageContains e errCodeAccessDeniedException "Macie is not enabled" then
      true
    else
      false

/-- Handler registration of `ResourceOrganizationAdminAccount` in
`organization_admin_account.go`: `CreateWithoutTimeout`,
`ReadWithoutTimeout` and `DeleteWithoutTimeout` are set; no update
handler field is set. -/
def organizationAdminAccountHandlers : RegisteredHandlers :=
  { hasCreate := true, hasRead := true, hasUpdate := false, hasDelete := true }

end Macie

namespace Flex

/-- Modelled from the spec: the separator used by `internal/flex` when
"packing composite multi-part identifiers into single string IDs and
parsing them back" (the functions `FlattenResourceId` and
`ExpandResourceId` are not part of the sources at hand). -/
def resourceIdSeparatorChar : Char := ','

/-- Joining a list of parts with a separator character (Go's
`strings.Join` on rune lists). -/
def joinSep (sep : Char) : List (List Char) → List Char
  | [] => []
  | [p] => p
  | p :: q :: ps => p ++ sep :: joinSep sep (q :: ps)

/-- Splitting a rune list at every occurrence of the separator (Go's
`strings.Split`; splitting the empty string yields one empty part). -/
def splitSep (sep : Char) : List Char → List (List Char)
  | [] => [[]]
  | c :: rest =>
    if c = sep then [] :: splitSep sep rest
    else
      match splitSep sep rest with
      | [] => [[c]]
      | p :: ps => (c :: p) :: ps

/-- Modelled from the spec: `intflex.FlattenResourceId` packs the given
parts into a single string ID joined by the separator; it refuses a part
list of the wrong length and, unless empty parts are allowed, a list
containing an empty part. -/
def FlattenResourceId (idParts : List String) (partCount : Nat)
    (allowEmptyPart : Bool) : Except String String :=
  if idParts.length ≠ partCount then
    .error "unexpected number of ID parts"
  else if !allowEmptyPart && idParts.any (fun p => p = "") then
    .error "unexpected empty ID part"
  else
    .ok (String.mk (joinSep resourceIdSeparatorChar (idParts.map String.toList)))

/-- Modelled from the spec: `intflex.ExpandResourceId` parses a packed
string ID back into its parts by splitting at the separator; it refuses an
ID that does not split into more than one part, or into a number of parts
other than `partCount`, or (unless allowed) one with an empty part. -/
def ExpandResourceId (id : String) (partCount : Nat)
    (allowEmptyPart : Bool) : Except String (List String) :=
  let idParts := (splitSep resourceIdSeparatorChar id.toList).map String.mk
  if idParts.length ≤ 1 then
    .error "expected more than one ID part"
  else if idParts.length ≠ partCount then
    .error "unexpected number of ID parts"
  else if !allowEmptyPart && idParts.any (fun p => p = "") then
    .error "unexpected empty ID part"
  else
    .ok idParts

end Flex

namespace LexSlot

/-- `slotIDPartCount` of the Lex V2 slot resource. -/
def slotIDPartCount : Nat := 5

/-- `aws.ToString`: dereference an optional string, nil becoming `""`. -/
def awsToString : Option String → String
  | none => ""
  | some s => s

/-- The fields of `lexmodelsv2.CreateSlotOutput` used by the Create
handler to build the resource ID (all are nilable pointers). -/
structure CreateSlotOutput where
  botId : Option String
  botVersion : Option String
  intentId : Option String
  localeId : Option String
  slotId : Option String
deriving DecidableEq, Repr

/-- The `idParts` slice built by `resourceSlot.Create`: exactly BotId,
BotVersion, IntentId, LocaleId, SlotId of the `CreateSlot` output, in
that order. -/
def slotCreateIdParts (out : CreateSlotOutput) : List String :=
  [awsToString out.botId, awsToString out.botVersion, awsToString out.intentId,
    awsToString out.localeId, awsToString out.slotId]

/-- The resource ID computed by `resourceSlot.Create`:
`intflex.FlattenResourceId(idParts, slotIDPartCount, false)`. -/
def slotCreateId (out : CreateSlotOutput) : Except String String :=
  Flex.FlattenResourceId (slotCreateIdParts out) slotIDPartCount false

/-- `lexmodelsv2.DescribeSlotInput` as built by `findSlotByID` from the
expanded ID parts. -/
structure DescribeSlotInput where
  botId : String
  botVersion : String
  intentId : String
  localeId : String
  slotId : String
deriving DecidableEq, Repr

/-- The `DescribeSlotInput` that `findSlotByID` builds: the ID is expanded
with `intflex.ExpandResourceId(id, slotIDPartCount, false)` and parts
0..4 become BotId, BotVersion, IntentId, LocaleId, SlotId. -/
def findSlotByIDInput (id : String) : Except String DescribeSlotInput :=
  match Flex.ExpandResourceId id slotIDPartCount false with
  | .error e => .error e
  | .ok parts =>
    .ok { botId := parts.getD 0 "", botVersion := parts.getD 1 "",
          intentId := parts.getD 2 "", localeId := parts.getD 3 "",
          slotId := parts.getD 4 "" }

/-- `lexmodelsv2.DeleteSlotInput` as built by `resourceSlot.Delete`. -/
structure DeleteSlotInput where
  botId : String
  botVersion : String
  intentId : String
  localeId : String
  slotId : String
deriving DecidableEq, Repr

/-- The `DeleteSlotInput` built by `resourceSlot.Delete` from the stored
state: every one of the five fields is set to `state.ID.ValueString()`,
the whole composite ID, with no call to `intflex.ExpandResourceId`. -/
def slotDeleteInput (stateId : String) : DeleteSlotInput :=
  { botId := stateId, botVersion := stateId, intentId := stateId,
    localeId := stateId, slotId := stateId }

/-- The `resourceSlotData` attributes relevant to Update: Terraform's
nullable values are `Option`s (`none` is null).  The nested
`obfuscation_setting` block is abstracted to its single enum string, the
`multiple_values_setting` block to its single bool, and the
`value_elicitation_setting` block to an opaque payload string. -/
structure SlotData where
  botID : Option String
  botVersion : Option String
  description : Option String
  id : Option String
  intentID : Option String
  localeID : Option String
  multipleValuesSetting : Option Bool
  name : Option String
  obfuscationSetting : Option String
  slotTypeID : Option String
  valueElicitationSettings : Option String
deriving DecidableEq, Repr

/-- `slotHasChanges(ctx, plan, state)`: true when plan and state differ in
description, name, slot type ID, or obfuscation setting (the source
compares the description twice). -/
def slotHasChanges (plan state : SlotData) : Bool :=
  decide (plan.description ≠ state.description) ||
    decide (plan.name ≠ state.name) ||
    decide (plan.description ≠ state.description) ||
    decide (plan.slotTypeID ≠ state.slotTypeID) ||
    decide (plan.obfuscationSetting ≠ state.obfuscationSetting)

/-- Response of an AWS call that returns an output pointer: an error, a
nil output, or a proper output. -/
inductive LexApiResp (α : Type) where
  | err (e : ApiError)
  | emptyOutput
  | ok (out : α)
deriving DecidableEq, Repr

/-- A whole run of `resourceSlot.Update`: whether `UpdateSlot` was
called, whether an error diagnostic was added, whether `resp.State.Set`
ran, and the resulting Terraform state (on an error return before
`State.Set`, the framework keeps the prior state). -/
structure UpdateRun where
  calledUpdateSlot : Bool
  errored : Bool
  stateWritten : Bool
  finalState : SlotData
deriving DecidableEq, Repr

/-- `resourceSlot.Update`: when `slotHasChanges` reports a difference the
handler expands the plan into an `UpdateSlotInput` and calls `UpdateSlot`
(`resp` is its response), returning early with an error diagnostic if the
call fails or returns nil output; in every non-erroring run it finishes
with `resp.State.Set(ctx, &plan)`. -/
def slotUpdate (plan state : SlotData) (resp : LexApiResp Unit) : UpdateRun :=
  if slotHasChanges plan state then
    match resp with
    | .err _ =>
      { calledUpdateSlot := true, errored := true, stateWritten := false,
        finalState := state }
    | .emptyOutput =>
      { calledUpdateSlot := true, errored := true, stateWritten := false,
        finalState := state }
    | .ok _ =>
      { calledUpdateSlot := true, errored := false, stateWritten := true,
        finalState := plan }
  else
    { calledUpdateSlot := false, errored := false, stateWritten := true,
      finalState := plan }

/-- The AWS calls a Lex slot handler can issue. -/
inductive LexCall where
  | createSlot (slotName : String)
  | describeSlot (input : DescribeSlotInput)
  | updateSlot
  | deleteSlot (input : DeleteSlotInput)
deriving DecidableEq, Repr

/-- Outcome of `resourceSlot.Create`. -/
inductive SlotCreateOutcome where
  | apiError (e : ApiError)
  | emptyOutput
  | flattenError
  | ok (finalState : SlotData)
deriving DecidableEq, Repr

/-- A run of `resourceSlot.Create`: the list of AWS calls issued, in
order, and the outcome.  The handler issues a single `CreateSlot` call;
on success it packs the resource ID from the output, writes the plan
(with the new ID) to state, and returns — it issues no further call and
does not poll the created slot. -/
def slotCreate (plan : SlotData) (resp : LexApiResp CreateSlotOutput) :
    List LexCall × SlotCreateOutcome :=
  let calls := [LexCall.createSlot (awsToString plan.name)]
  match resp with
  | .err e => (calls, .apiError e)
  | .emptyOutput => (calls, .emptyOutput)
  | .ok out =>
    match slotCreateId out with
    | .error _ => (calls, .flattenError)
    | .ok id => (calls, .ok { plan with id := some id })

/-- Handler registration of the Lex V2 slot resource: the `resourceSlot`
methods `Create`, `Read`, `Update` and `Delete` are all implemented. -/
def slotHandlers : RegisteredHandlers :=
  { hasCreate := true, hasRead := true, hasUpdate := true, hasDelete := true }

end LexSlot

namespace Grafana

/-- Errors as classified by `tfresource.NotFound`. -/
inductive GError where
  | notFound
  | other (msg : String)
deriving DecidableEq, Repr

/-- `managedgrafana.RoleValues` (both slices are nilable). -/
structure RoleValues where
  admin : Option (List String)
  editor : Option (List String)
deriving DecidableEq, Repr

/-- `managedgrafana.AssertionAttributes` (all fields nilable). -/
structure AssertionAttributes where
  email : Option String
  groups : Option String
  login : Option String
  name : Option String
  org : Option String
  role : Option String
deriving DecidableEq, Repr

/-- `managedgrafana.IdpMetadata`. -/
structure IdpMetadata where
  url : Option String
  xml : Option String
deriving DecidableEq, Repr

/-- `managedgrafana.SamlConfiguration` as returned inside the
`FindSamlConfigurationByID` result; every nested struct is a nilable
pointer. -/
structure SamlConfiguration where
  roleValues : Option RoleValues
  allowedOrganizations : Option (List String)
  assertionAttributes : Option AssertionAttributes
  idpMetadata : Option IdpMetadata
  loginValidityDuration : Option Int
deriving DecidableEq, Repr

/-- The `saml` value returned by `FindSamlConfigurationByID`: a
`SamlAuthentication` with a nilable `Configuration` and a status. -/
structure SamlAuthentication where
  configuration : Option SamlConfiguration
  status : String
deriving DecidableEq, Repr

/-- The attribute writes performed by a successful
`resourceWorkspaceSamlConfigurationRead` (a `none` means the guarded
`d.Set` for that attribute did not run). -/
structure ReadState where
  adminRoleValues : Option (List String)
  allowedOrganizations : Option (List String)
  editorRoleValues : Option (List String)
  emailAssertion : Option String
  groupsAssertion : Option String
  idpMetadataUrl : Option String
  idpMetadataXml : Option String
  loginAssertion : Option String
  loginValidityDuration : Option Int
  nameAssertion : Option String
  orgAssertion : Option String
  roleAssertion : Option String
  status : String
deriving DecidableEq, Repr

/-- Outcome of `resourceWorkspaceSamlConfigurationRead`: the resource was
removed from state, an error was returned, the handler hit a nil-pointer
dereference, or it completed with the given attribute writes. -/
inductive ReadOutcome where
  | removed
  | err (e : GError)
  | nilPanic
  | ok (st : ReadState)
deriving DecidableEq, Repr

/-- `resourceWorkspaceSamlConfigurationRead`.  `find` is the
`FindSamlConfigurationByID` result.  A not-found error on a non-new
resource removes it from state; any other error is returned.  Otherwise
the handler dereferences, in source order, `saml.Configuration`,
`.RoleValues`, `.AssertionAttributes` and `.IdpMetadata` without nil
checks — each of those being nil is a panic — and performs the guarded
`d.Set` writes. -/
def samlConfigurationRead (isNew : Bool)
    (find : Except GError SamlAuthentication) : ReadOutcome :=
  match find with
  | .error e => if e = .notFound && !isNew then .removed else .err e
  | .ok saml =>
    match saml.configuration with
    | none => .nilPanic
    | some cfg =>
      match cfg.roleValues with
      | none => .nilPanic
      | some rv =>
        match cfg.assertionAttributes with
        | none => .nilPanic
        | some aa =>
          match cfg.idpMetadata with
          | none => .nilPanic
          | some im =>
            .ok { adminRoleValues := rv.admin,
                  allowedOrganizations := cfg.allowedOrganizations,
                  editorRoleValues := rv.editor,
                  emailAssertion := aa.email,
                  groupsAssertion := aa.groups,
                  idpMetadataUrl := im.url,
                  idpMetadataXml := im.xml,
                  loginAssertion := aa.login,
                  loginValidityDuration := cfg.loginValidityDuration,
                  nameAssertion := aa.name,
                  orgAssertion := aa.org,
                  roleAssertion := aa.role,
                  status := saml.status }

/-- The Terraform configuration read by the upsert handler (`d.GetOk`
yields `none` for unset attributes). -/
structure SamlConfigInput where
  workspaceId : String
  editorRoleValues : List String
  adminRoleValues : Option (List String)
  allowedOrganizations : Option (List String)
  emailAssertion : Option String
  groupsAssertion : Option String
  loginAssertion : Option String
  nameAssertion : Option String
  orgAssertion : Option String
  roleAssertion : Option String
deriving DecidableEq, Repr

/-- The `*managedgrafana.AssertionAttributes` built by the upsert handler
from the six assertion attributes: nil when none of them is set,
otherwise a struct with exactly the set ones. -/
def buildAssertionAttributes (cfg : SamlConfigInput) :
    Option AssertionAttributes :=
  if cfg.emailAssertion = none && cfg.groupsAssertion = none &&
      cfg.loginAssertion = none && cfg.nameAssertion = none &&
      cfg.orgAssertion = none && cfg.roleAssertion = none then
    none
  else
    some { email := cfg.emailAssertion, groups := cfg.groupsAssertion,
           login := cfg.loginAssertion, name := cfg.nameAssertion,
           org := cfg.orgAssertion, role := cfg.roleAssertion }

/-- The `managedgrafana.SamlConfiguration` sent by the upsert handler. -/
def buildSamlConfiguration (cfg : SamlConfigInput) : SamlConfiguration :=
  { roleValues := some { admin := cfg.adminRoleValues,
                         editor := some cfg.editorRoleValues },
    allowedOrganizations := cfg.allowedOrganizations,
    assertionAttributes := buildAssertionAttributes cfg,
    idpMetadata := none,
    loginValidityDuration := none }

/-- A workspace as returned by `FindWorkspaceByID`, reduced to the field
the handlers use: `workspace.Authentication.Providers`. -/
structure Workspace where
  authenticationProviders : List String
deriving DecidableEq, Repr

/-- The calls the Grafana SAML configuration handlers issue, in order.
`updateWorkspaceAuthentication` records whether a `SamlConfiguration`
was attached to the request. -/
inductive GrafanaCall where
  | findWorkspaceByID (id : String)
  | updateWorkspaceAuthentication (hasSamlConfiguration : Bool)
  | waitWorkspaceSamlConfigurationCreated (id : String)
  | waitWorkspaceSamlConfigurationDeleted (id : String)
  | findSamlConfigurationByID (id : String)
deriving DecidableEq, Repr

/-- Outcome of `resourceWorkspaceSamlConfigurationUpsert`. -/
inductive UpsertOutcome where
  | removed
  | err (e : GError)
  | readResult (r : ReadOutcome)
deriving DecidableEq, Repr

/-- `resourceWorkspaceSamlConfigurationUpsert` (registered as both Create
and Update).  Oracles: `findW` for `FindWorkspaceByID`, `updateResp` for
`UpdateWorkspaceAuthentication`, `waitResp` for
`waitWorkspaceSamlConfigurationCreated`, `findS` for the trailing Read's
`FindSamlConfigurationByID`.  It returns the list of calls issued in
order together with the outcome; after a successful
`UpdateWorkspaceAuthentication` it always waits via
`waitWorkspaceSamlConfigurationCreated` before reading and returning. -/
def samlConfigurationUpsert (isNew : Bool) (cfg : SamlConfigInput)
    (findW : Except GError Workspace) (updateResp : Option GError)
    (waitResp : Option GError) (findS : Except GError SamlAuthentication) :
    List GrafanaCall × UpsertOutcome :=
  let id := cfg.workspaceId
  match findW with
  | .error e =>
    if e = .notFound && !isNew then ([.findWorkspaceByID id], .removed)
    else ([.findWorkspaceByID id], .err e)
  | .ok _w =>
    match updateResp with
    | some e =>
      ([.findWorkspaceByID id, .updateWorkspaceAuthentication true], .err e)
    | none =>
      match waitResp with
      | some e =>
        ([.findWorkspaceByID id, .updateWorkspaceAuthentication true,
          .waitWorkspaceSamlConfigurationCreated id], .err e)
      | none =>
        ([.findWorkspaceByID id, .updateWorkspaceAuthentication true,
          .waitWorkspaceSamlConfigurationCreated id,
          .findSamlConfigurationByID id],
          .readResult (samlConfigurationRead isNew findS))

/-- Outcome of `resourceWorkspaceSamlConfigurationDelete`. -/
inductive DeleteOutcome where
  | err (e : GError)
  | ok
deriving DecidableEq, Repr

/-- `resourceWorkspaceSamlConfigurationDelete`: reads the workspace (any
error is returned), issues `UpdateWorkspaceAuthentication` with no
`SamlConfiguration`, then always waits via
`waitWorkspaceSamlConfigurationDeleted` before returning success. -/
def samlConfigurationDelete (id : String) (findW : Except GError Workspace)
    (updateResp : Option GError) (waitResp : Option GError) :
    List GrafanaCall × DeleteOutcome :=
  match findW with
  | .error e => ([.findWorkspaceByID id], .err e)
  | .ok _w =>
    match updateResp with
    | some e =>
      ([.findWorkspaceByID id, .updateWorkspaceAuthentication false], .err e)
    | none =>
      match waitResp with
      | some e =>
        ([.findWorkspaceByID id, .updateWorkspaceAuthentication false,
          .waitWorkspaceSamlConfigurationDeleted id], .err e)
      | none =>
        ([.findWorkspaceByID id, .updateWorkspaceAuthentication false,
          .waitWorkspaceSamlConfigurationDeleted id], .ok)

/-- Handler registration of `ResourceWorkspaceSamlConfiguration`:
`Create` and `Update` are both `resourceWorkspaceSamlConfigurationUpsert`,
and `Read` and `Delete` are set. -/
def samlConfigurationHandlers : RegisteredHandlers :=
  { hasCreate := true, hasRead := true, hasUpdate := true, hasDelete := true }

end Grafana

/-! ## Helper lemmas -/

namespace Flex

theorem splitSep_of_not_mem (sep : Char) (p : List Char) (h : sep ∉ p) :
    splitSep sep p = [p] := by
  induction p with
  | nil => rfl
  | cons c rest ih =>
    have hc : ¬ c = sep := by
      intro hcs
      exact h (hcs ▸ List.mem_cons_self c rest)
    have hr : sep ∉ rest := fun hm => h (List.mem_cons_of_mem _ hm)
    simp [splitSep, if_neg hc, ih hr]

theorem splitSep_append (sep : Char) (p t : List Char) (h : sep ∉ p) :
    splitSep sep (p ++ sep :: t) = p :: splitSep sep t := by
  induction p with
  | nil => simp [splitSep]
  | cons c rest ih =>
    have hc : ¬ c = sep := by
      intro hcs
      exact h (hcs ▸ List.mem_cons_self c rest)
    have hr : sep ∉ rest := fun hm => h (List.mem_cons_of_mem _ hm)
    simp [splitSep, if_neg hc, ih hr]

theorem splitSep_joinSep (sep : Char) (parts : List (List Char))
    (hne : parts ≠ []) (h : ∀ p ∈ parts, sep ∉ p) :
    splitSep sep (joinSep sep parts) = parts := by
  induction parts with
  | nil => exact absurd rfl hne
  | cons p ps ih =>
    cases ps with
    | nil => simpa [joinSep] using splitSep_of_not_mem sep p (h p (by simp))
    | cons q qs =>
      have h1 : sep ∉ p := h p (by simp)
      have h2 : ∀ r ∈ q :: qs, sep ∉ r := fun r hr => h r (by simp [hr])
      have hrec := ih (by simp) h2
      simp [joinSep, splitSep_append sep p _ h1, hrec]

theorem mk_toList_map (parts : List String) :
    (parts.map String.toList).map String.mk = parts := by
  rw [List.map_map]
  have hid : String.mk ∘ String.toList = id := funext fun s => rfl
  rw [hid, List.map_id]

/-- Packing then parsing: when `FlattenResourceId` produced an ID from
parts none of which contains the separator, `ExpandResourceId` with the
same part count recovers the parts exactly. -/
theorem expand_flatten_roundtrip (parts : List String) (n : Nat) (id : String)
    (hn : 1 < n)
    (hok : FlattenResourceId parts n false = .ok id)
    (hsep : ∀ p ∈ parts, resourceIdSeparatorChar ∉ p.toList) :
    ExpandResourceId id n false = .ok parts := by
  unfold FlattenResourceId at hok
  split at hok
  · exact absurd hok (by simp)
  · split at hok
    · exact absurd hok (by simp)
    · rename_i hlen hempty
      have hlen' : parts.length = n := by
        by_contra hcon
        exact hlen hcon
      have hid : id = String.mk (joinSep resourceIdSeparatorChar
          (parts.map String.toList)) := by
        cases hok
        rfl
      have hmapne : parts.map String.toList ≠ [] := by
        intro hnil
        have : parts.length = 0 := by
          simpa using congrArg List.length hnil
        omega
      have hmapsep : ∀ l ∈ parts.map String.toList,
          resourceIdSeparatorChar ∉ l := by
        intro l hl
        rcases List.mem_map.mp hl with ⟨p, hp, rfl⟩
        exact hsep p hp
      have hsplit : splitSep resourceIdSeparatorChar id.toList =
          parts.map String.toList := by
        rw [hid]
        exact splitSep_joinSep _ _ hmapne hmapsep
      unfold ExpandResourceId
      rw [hsplit, mk_toList_map]
      dsimp only
      rw [hlen']
      rw [if_neg (by omega)]
      rw [if_neg (by omega)]
      simp only [Bool.not_false, Bool.true_and]
      rw [if_neg (by simp_all)]

end Flex

namespace Macie

theorem createFinish_enableCalls (input : EnableInput) (calls : Nat)
    (get : Except ApiError (Option AdminAccount)) :
    (createFinish input calls get).enableCalls = calls := by
  cases get with
  | error e => rfl
  | ok o => cases o <;> rfl

theorem createFinish_input (input : EnableInput) (calls : Nat)
    (get : Except ApiError (Option AdminAccount)) :
    (createFinish input calls get).input = input := by
  cases get with
  | error e => rfl
  | ok o => cases o <;> rfl

theorem createFinish_outcome_ne_createError (input : EnableInput)
    (calls : Nat) (get : Except ApiError (Option AdminAccount))
    (e : ApiError) :
    (createFinish input calls get).outcome ≠ .createError e := by
  cases get with
  | error e2 => simp [createFinish]
  | ok o => cases o <;> simp [createFinish]

end Macie

namespace LexSlot

theorem slotHasChanges_iff (plan state : SlotData) :
    slotHasChanges plan state = true ↔
      (plan.description ≠ state.description ∨ plan.name ≠ state.name ∨
        plan.slotTypeID ≠ state.slotTypeID ∨
        plan.obfuscationSetting ≠ state.obfuscationSetting) := by
  simp only [slotHasChanges, Bool.or_eq_true, decide_eq_true_eq]
  tauto

end LexSlot

/-! ## Claim theorems -/

/-- C1: in `resourceOrganizationAdminAccountCreate` the
`EnableOrganizationAdminAccount` call is retried within the bounded
4-minute window only (`fuel` attempts fit in the window, and the loop
makes at most that many calls); an error is retried exactly when its code
equals `awstypes.ErrorCodeClientError`, every other error stopping the
loop at once as non-retryable; and when the retry window times out,
exactly one further `EnableOrganizationAdminAccount` call is made, whose
error (if any) is reported as the creation error and whose success lets
the handler proceed. -/
theorem macie_create_retry_policy :
    Macie.retryTimeoutMinutes = 4 ∧
    (∀ resp fuel k, (Macie.retryEnable resp fuel k).calls ≤ k + fuel) ∧
    (∀ resp fuel k e, resp k = some e →
      (e.code = Macie.errorCodeClientError →
        Macie.retryEnable resp (fuel + 1) k =
          Macie.retryEnable resp fuel (k + 1)) ∧
      (e.code ≠ Macie.errorCodeClientError →
        Macie.retryEnable resp (fuel + 1) k = .failure e (k + 1))) ∧
    (∀ uniqueId resp fuel get acct n,
      Macie.retryEnable resp fuel 0 = .timeout n →
      (Macie.organizationAdminAccountCreate uniqueId resp fuel get
          acct).enableCalls = n + 1 ∧
      (∀ e, resp n = some e →
        (Macie.organizationAdminAccountCreate uniqueId resp fuel get
            acct).outcome = .createError e) ∧
      (resp n = none → ∀ e,
        (Macie.organizationAdminAccountCreate uniqueId resp fuel get
            acct).outcome ≠ .createError e)) := by
  refine ⟨rfl, ?_, ?_, ?_⟩
  · intro resp fuel k
    induction fuel generalizing k with
    | zero => simp [Macie.retryEnable, Macie.RetryResult.calls]
    | succ m ih =>
      cases hr : resp k with
      | none =>
        have hstep : Macie.retryEnable resp (m + 1) k = .success (k + 1) := by
          simp [Macie.retryEnable, hr]
        rw [hstep]
        simp only [Macie.RetryResult.calls]
        omega
      | some e =>
        by_cases hc : e.code = Macie.errorCodeClientError
        · have hstep : Macie.retryEnable resp (m + 1) k =
              Macie.retryEnable resp m (k + 1) := by
            simp [Macie.retryEnable, hr, hc]
          rw [hstep]
          have := ih (k + 1)
          omega
        · have hstep : Macie.retryEnable resp (m + 1) k =
              .failure e (k + 1) := by
            simp [Macie.retryEnable, hr, hc]
          rw [hstep]
          simp only [Macie.RetryResult.calls]
          omega
  · intro resp fuel k e hk
    constructor
    · intro hc
      simp [Macie.retryEnable, hk, hc]
    · intro hc
      simp [Macie.retryEnable, hk, hc]
  · intro uniqueId resp fuel get acct n ht
    refine ⟨?_, ?_, ?_⟩
    · cases hr : resp n with
      | none =>
        have hc : Macie.organizationAdminAccountCreate uniqueId resp fuel
            get acct = Macie.createFinish ⟨acct, uniqueId⟩ (n + 1) get := by
          simp [Macie.organizationAdminAccountCreate, ht, hr]
        rw [hc, Macie.createFinish_enableCalls]
      | some e =>
        have hc : Macie.organizationAdminAccountCreate uniqueId resp fuel
            get acct = ⟨⟨acct, uniqueId⟩, n + 1, .createError e⟩ := by
          simp [Macie.organizationAdminAccountCreate, ht, hr]
        rw [hc]
    · intro e he
      have hc : Macie.organizationAdminAccountCreate uniqueId resp fuel
          get acct = ⟨⟨acct, uniqueId⟩, n + 1, .createError e⟩ := by
        simp [Macie.organizationAdminAccountCreate, ht, he]
      rw [hc]
    · intro hnone e
      have hc : Macie.organizationAdminAccountCreate uniqueId resp fuel
          get acct = Macie.createFinish ⟨acct, uniqueId⟩ (n + 1) get := by
        simp [Macie.organizationAdminAccountCreate, ht, hnone]
      rw [hc]
      exact Macie.createFinish_outcome_ne_createError _ _ _ e

/-- Witness for C1: with every response a retryable `ClientError` and a
2-attempt window, the loop times out after 2 calls and the handler makes
exactly one further call. -/
theorem macie_create_retry_policy_witness :
    (Macie.organizationAdminAccountCreate "tok"
        (fun _ => some ⟨Macie.errorCodeClientError, "m"⟩) 2 (.ok none)
        "111").enableCalls = 2 + 1 :=
  (macie_create_retry_policy.2.2.2 "tok"
    (fun _ => some ⟨Macie.errorCodeClientError, "m"⟩) 2 (.ok none) "111" 2
    (by decide)).1

/-- C7: the bounded retry loop always terminates with one of three
results — success, a non-retryable error, or a timeout once the window
is exhausted (the timeout case arising exactly when every attempt in the
window failed with the retryable `ClientError` code); it never polls
beyond the window. -/
theorem retry_loop_terminates :
    ∀ (resp : Nat → Option ApiError) (fuel k : Nat),
      (∃ n, Macie.retryEnable resp fuel k = .success n) ∨
      (∃ n e, Macie.retryEnable resp fuel k = .failure e n ∧
        e.code ≠ Macie.errorCodeClientError) ∨
      (Macie.retryEnable resp fuel k = .timeout (k + fuel) ∧
        ∀ i, i < fuel → ∃ e, resp (k + i) = some e ∧
          e.code = Macie.errorCodeClientError) := by
  intro resp fuel
  induction fuel with
  | zero =>
    intro k
    right; right
    exact ⟨by simp [Macie.retryEnable], fun i hi => absurd hi (by omega)⟩
  | succ m ih =>
    intro k
    cases hr : resp k with
    | none =>
      left
      exact ⟨k + 1, by simp [Macie.retryEnable, hr]⟩
    | some e =>
      by_cases hc : e.code = Macie.errorCodeClientError
      · have heq : Macie.retryEnable resp (m + 1) k =
            Macie.retryEnable resp m (k + 1) := by
          simp [Macie.retryEnable, hr, hc]
        rcases ih (k + 1) with ⟨n, h⟩ | ⟨n, e2, h, hne⟩ | ⟨h, hall⟩
        · exact Or.inl ⟨n, heq.trans h⟩
        · exact Or.inr (Or.inl ⟨n, e2, heq.trans h, hne⟩)
        · right; right
          constructor
          · rw [heq, h]
            congr 1
            omega
          · intro i hi
            cases i with
            | zero => exact ⟨e, by simpa using hr, hc⟩
            | succ j =>
              have hj := hall j (by omega)
              have hx : k + 1 + j = k + (j + 1) := by omega
              rw [hx] at hj
              exact hj
      · right; left
        exact ⟨k + 1, e, by simp [Macie.retryEnable, hr, hc], hc⟩

/-- Witness for C7 at a concrete response sequence and window. -/
theorem retry_loop_terminates_witness :
    (∃ n, Macie.retryEnable (fun _ => none) 1 0 = .success n) ∨
    (∃ n e, Macie.retryEnable (fun _ => none) 1 0 = .failure e n ∧
      e.code ≠ Macie.errorCodeClientError) ∨
    (Macie.retryEnable (fun _ => none) 1 0 = .timeout (0 + 1) ∧
      ∀ i, i < 1 → ∃ e, (fun _ => none : Nat → Option ApiError) (0 + i) =
        some e ∧ e.code = Macie.errorCodeClientError) :=
  retry_loop_terminates (fun _ => none) 1 0

/-- Counterexample for C6 as stated: two runs of the Macie Create handler
from the same configuration and with the same AWS responses, differing
only in the `id.UniqueId()` value generated during the run, issue
different `EnableOrganizationAdminAccountInput` requests (the
`ClientToken` fields differ). -/
theorem macie_create_requests_differ_between_runs :
    (Macie.organizationAdminAccountCreate "token-1" (fun _ => none) 1
        (.ok (some ⟨some "111"⟩)) "111").input ≠
      (Macie.organizationAdminAccountCreate "token-2" (fun _ => none) 1
        (.ok (some ⟨some "111"⟩)) "111").input := by
  decide

/-- C6 (amended): the Macie Create handler is deterministic relative to
the AWS API up to the generated client token: two runs from the same
configuration receiving the same AWS responses issue the same number of
`EnableOrganizationAdminAccount` calls with the same `AdminAccountId`
field — only the `ClientToken` (the run's `id.UniqueId()`) differs — and
reach identical outcomes and final Terraform state. -/
theorem macie_create_deterministic_up_to_token :
    ∀ tok1 tok2 resp fuel get acct,
      (Macie.organizationAdminAccountCreate tok1 resp fuel get
          acct).input.adminAccountId =
        (Macie.organizationAdminAccountCreate tok2 resp fuel get
          acct).input.adminAccountId ∧
      (Macie.organizationAdminAccountCreate tok1 resp fuel get
          acct).input.clientToken = tok1 ∧
      (Macie.organizationAdminAccountCreate tok1 resp fuel get
          acct).enableCalls =
        (Macie.organizationAdminAccountCreate tok2 resp fuel get
          acct).enableCalls ∧
      (Macie.organizationAdminAccountCreate tok1 resp fuel get
          acct).outcome =
        (Macie.organizationAdminAccountCreate tok2 resp fuel get
          acct).outcome := by
  intro tok1 tok2 resp fuel get acct
  unfold Macie.organizationAdminAccountCreate
  cases h : Macie.retryEnable resp fuel 0 with
  | success n =>
    cases get with
    | error e => simp [Macie.createFinish]
    | ok o => cases o <;> simp [Macie.createFinish]
  | failure e n => simp
  | timeout n =>
    cases hr : resp n with
    | none =>
      cases get with
      | error e => simp [Macie.createFinish, hr]
      | ok o => cases o <;> simp [Macie.createFinish, hr]
    | some e => simp [hr]

/-- Witness for C6 (amended) at concrete runs. -/
theorem macie_create_deterministic_up_to_token_witness :
    (Macie.organizationAdminAccountCreate "t1" (fun _ => none) 1
        (.ok (some ⟨some "111"⟩)) "111").outcome =
      (Macie.organizationAdminAccountCreate "t2" (fun _ => none) 1
        (.ok (some ⟨some "111"⟩)) "111").outcome :=
  (macie_create_deterministic_up_to_token "t1" "t2" (fun _ => none) 1
    (.ok (some ⟨some "111"⟩)) "111").2.2.2

/-- C8: the Macie Delete handler returns success with no error
diagnostics exactly when `DisableOrganizationAdminAccount` succeeded, or
failed with `ResourceNotFoundException`, or failed with
`AccessDeniedException` whose message contains "Macie is not enabled";
every other error yields an error diagnostic. -/
theorem macie_delete_suppresses_not_found :
    ∀ resp : Option ApiError,
      Macie.organizationAdminAccountDelete resp = true ↔
        (resp = none ∨
          ∃ e, resp = some e ∧
            (e.code = Macie.errCodeResourceNotFoundException ∨
              (e.code = Macie.errCodeAccessDeniedException ∧
                strContains e.message "Macie is not enabled" = true))) := by
  intro resp
  cases resp with
  | none => simp [Macie.organizationAdminAccountDelete]
  | some e =>
    by_cases hcond : (decide (e.code = Macie.errCodeResourceNotFoundException) ||
        errMessageContains e Macie.errCodeAccessDeniedException
          "Macie is not enabled") = true
    · simp only [Macie.organizationAdminAccountDelete, if_pos hcond]
      simp only [Bool.or_eq_true, decide_eq_true_eq, errMessageContains,
        Bool.and_eq_true] at hcond
      simp only [true_iff]
      right
      exact ⟨e, rfl, hcond⟩
    · simp only [Macie.organizationAdminAccountDelete, if_neg hcond]
      simp only [Bool.or_eq_true, decide_eq_true_eq, errMessageContains,
        Bool.and_eq_true, not_or, not_and] at hcond
      constructor
      · intro h
        exact absurd h (by simp)
      · rintro (h | ⟨e2, he2, hcase⟩)
        · exact absurd h (by simp)
        · have : e2 = e := by
            simpa using he2.symm
          subst this
          rcases hcase with h1 | ⟨h2, h3⟩
          · exact absurd h1 hcond.1
          · exact absurd h3 (hcond.2 h2)

/-- Witness for C8: an `AccessDeniedException` whose message contains
"Macie is not enabled" is suppressed. -/
theorem macie_delete_suppresses_not_found_witness :
    Macie.organizationAdminAccountDelete
      (some ⟨"AccessDeniedException", "Macie is not enabled for account"⟩) =
      true :=
  (macie_delete_suppresses_not_found
    (some ⟨"AccessDeniedException", "Macie is not enabled for account"⟩)).mpr
    (Or.inr ⟨_, rfl, Or.inr ⟨rfl, by decide⟩⟩)

/-- Counterexample for C9 as stated: when plan and state differ in the
name and `UpdateSlot` fails, the handler returns the error before
`resp.State.Set`, so the planned values are not written — refuting "in
all cases the planned values are written to the Terraform state". -/
theorem slot_update_state_not_written_on_error :
    (LexSlot.slotUpdate
        ⟨none, none, none, none, none, none, none, some "new", none, none,
          none⟩
        ⟨none, none, none, none, none, none, none, some "old", none, none,
          none⟩
        (.err ⟨"InternalServerException", "boom"⟩)).stateWritten = false ∧
    (LexSlot.slotUpdate
        ⟨none, none, none, none, none, none, none, some "new", none, none,
          none⟩
        ⟨none, none, none, none, none, none, none, some "old", none, none,
          none⟩
        (.err ⟨"InternalServerException", "boom"⟩)).finalState ≠
      ⟨none, none, none, none, none, none, none, some "new", none, none,
        none⟩ := by
  exact ⟨rfl, by decide⟩

/-- C9 (amended): `resourceSlot.Update` calls `UpdateSlot` if and only if
plan and state differ in at least one of description, name, slot type ID,
or obfuscation setting; for a plan changing only other attributes no AWS
call is made and the planned values are written to state; and in every
run that adds no error diagnostic the planned values are written to
state, while a failing `UpdateSlot` call leaves the prior state in
place. -/
theorem slot_update_calls_iff_changes :
    ∀ (plan state : LexSlot.SlotData) (resp : LexSlot.LexApiResp Unit),
      ((LexSlot.slotUpdate plan state resp).calledUpdateSlot = true ↔
        (plan.description ≠ state.description ∨ plan.name ≠ state.name ∨
          plan.slotTypeID ≠ state.slotTypeID ∨
          plan.obfuscationSetting ≠ state.obfuscationSetting)) ∧
      ((LexSlot.slotUpdate plan state resp).errored = false →
        (LexSlot.slotUpdate plan state resp).stateWritten = true ∧
        (LexSlot.slotUpdate plan state resp).finalState = plan) ∧
      ((LexSlot.slotUpdate plan state resp).errored = true →
        (LexSlot.slotUpdate plan state resp).stateWritten = false ∧
        (LexSlot.slotUpdate plan state resp).finalState = state) ∧
      (plan.description = state.description → plan.name = state.name →
        plan.slotTypeID = state.slotTypeID →
        plan.obfuscationSetting = state.obfuscationSetting →
        (LexSlot.slotUpdate plan state resp).calledUpdateSlot = false ∧
        (LexSlot.slotUpdate plan state resp).finalState = plan) := by
  intro plan state resp
  by_cases hch : LexSlot.slotHasChanges plan state = true
  · have hdisj := (LexSlot.slotHasChanges_iff plan state).mp hch
    cases resp with
    | err e =>
      have hu : LexSlot.slotUpdate plan state (.err e) =
          ⟨true, true, false, state⟩ := by
        simp [LexSlot.slotUpdate, hch]
      rw [hu]
      refine ⟨by simpa using hdisj, ?_, fun _ => ⟨rfl, rfl⟩, ?_⟩
      · intro h
        simp at h
      · intro h1 h2 h3 h4
        rcases hdisj with h | h | h | h
        · exact absurd h1 h
        · exact absurd h2 h
        · exact absurd h3 h
        · exact absurd h4 h
    | emptyOutput =>
      have hu : LexSlot.slotUpdate plan state .emptyOutput =
          ⟨true, true, false, state⟩ := by
        simp [LexSlot.slotUpdate, hch]
      rw [hu]
      refine ⟨by simpa using hdisj, ?_, fun _ => ⟨rfl, rfl⟩, ?_⟩
      · intro h
        simp at h
      · intro h1 h2 h3 h4
        rcases hdisj with h | h | h | h
        · exact absurd h1 h
        · exact absurd h2 h
        · exact absurd h3 h
        · exact absurd h4 h
    | ok u =>
      have hu : LexSlot.slotUpdate plan state (.ok u) =
          ⟨true, false, true, plan⟩ := by
        simp [LexSlot.slotUpdate, hch]
      rw [hu]
      refine ⟨by simpa using hdisj, fun _ => ⟨rfl, rfl⟩, ?_, ?_⟩
      · intro h
        simp at h
      · intro h1 h2 h3 h4
        rcases hdisj with h | h | h | h
        · exact absurd h1 h
        · exact absurd h2 h
        · exact absurd h3 h
        · exact absurd h4 h
  · have hdisj : ¬ (plan.description ≠ state.description ∨
        plan.name ≠ state.name ∨ plan.slotTypeID ≠ state.slotTypeID ∨
        plan.obfuscationSetting ≠ state.obfuscationSetting) :=
      fun hd => hch ((LexSlot.slotHasChanges_iff plan state).mpr hd)
    have hu : LexSlot.slotUpdate plan state resp =
        ⟨false, false, true, plan⟩ := by
      simp [LexSlot.slotUpdate, hch]
    rw [hu]
    refine ⟨by simpa using hdisj, fun _ => ⟨rfl, rfl⟩, ?_,
      fun _ _ _ _ => ⟨rfl, rfl⟩⟩
    intro h
    simp at h

/-- Witness for C9: a plan changing only `value_elicitation_setting`
issues no `UpdateSlot` call and is still written to state. -/
theorem slot_update_calls_iff_changes_witness :
    (LexSlot.slotUpdate
        ⟨none, none, none, none, none, none, none, some "n", none, none,
          some "v2"⟩
        ⟨none, none, none, none, none, none, none, some "n", none, none,
          some "v1"⟩
        (.ok ())).calledUpdateSlot = false ∧
    (LexSlot.slotUpdate
        ⟨none, none, none, none, none, none, none, some "n", none, none,
          some "v2"⟩
        ⟨none, none, none, none, none, none, none, some "n", none, none,
          some "v1"⟩
        (.ok ())).finalState =
      ⟨none, none, none, none, none, none, none, some "n", none, none,
        some "v2"⟩ :=
  (slot_update_calls_iff_changes
    ⟨none, none, none, none, none, none, none, some "n", none, none,
      some "v2"⟩
    ⟨none, none, none, none, none, none, none, some "n", none, none,
      some "v1"⟩
    (.ok ())).2.2.2 rfl rfl rfl rfl

/-- C10: the Grafana SAML configuration Read handler completes without a
nil-pointer panic only when the configuration returned by
`FindSamlConfigurationByID` has `RoleValues`, `AssertionAttributes` and
`IdpMetadata` all non-nil; and for the reachable response whose
configuration has no assertion attributes set, the error branch is not
taken and the handler dereferences nil. -/
theorem saml_read_requires_non_nil_config :
    (∀ isNew saml,
      Grafana.samlConfigurationRead isNew (.ok saml) ≠ .nilPanic →
      ∃ cfg, saml.configuration = some cfg ∧ cfg.roleValues ≠ none ∧
        cfg.assertionAttributes ≠ none ∧ cfg.idpMetadata ≠ none) ∧
    Grafana.samlConfigurationRead true
      (.ok ⟨some ⟨some ⟨none, some ["ed"]⟩, none, none, none, none⟩,
        "CONFIGURED"⟩) = .nilPanic := by
  constructor
  · intro isNew saml h
    rcases saml with ⟨cfgOpt, status⟩
    cases cfgOpt with
    | none => simp [Grafana.samlConfigurationRead] at h
    | some cfg =>
      refine ⟨cfg, rfl, ?_, ?_, ?_⟩
      · intro hrv
        apply h
        simp [Grafana.samlConfigurationRead, hrv]
      · intro haa
        apply h
        cases hrv : cfg.roleValues with
        | none => simp [Grafana.samlConfigurationRead, hrv]
        | some rv => simp [Grafana.samlConfigurationRead, hrv, haa]
      · intro him
        apply h
        cases hrv : cfg.roleValues with
        | none => simp [Grafana.samlConfigurationRead, hrv]
        | some rv =>
          cases haa : cfg.assertionAttributes with
          | none => simp [Grafana.samlConfigurationRead, hrv, haa]
          | some aa => simp [Grafana.samlConfigurationRead, hrv, haa, him]
  · rfl

/-- Witness for C10: a response with all three nested structures non-nil
completes, and the theorem recovers their non-nilness. -/
theorem saml_read_requires_non_nil_config_witness :
    ∃ cfg,
      (⟨some ⟨some ⟨none, some ["ed"]⟩, none,
          some ⟨none, none, none, none, none, none⟩, some ⟨none, none⟩,
          none⟩, "CONFIGURED"⟩ :
        Grafana.SamlAuthentication).configuration = some cfg ∧
      cfg.roleValues ≠ none ∧ cfg.assertionAttributes ≠ none ∧
      cfg.idpMetadata ≠ none :=
  saml_read_requires_non_nil_config.1 true
    ⟨some ⟨some ⟨none, some ["ed"]⟩, none,
      some ⟨none, none, none, none, none, none⟩, some ⟨none, none⟩, none⟩,
      "CONFIGURED"⟩ (by decide)

/-- C2 (amended): `resourceSlot.Create` packs exactly BotId, BotVersion,
IntentId, LocaleId, SlotId, in that order, into the resource ID via
`FlattenResourceId` with part count 5; and for every ID so produced from
parts none of which contains the separator character, `findSlotByID`'s
`ExpandResourceId` with part count 5 parses it back into exactly those
five parts in the same order. -/
theorem slot_create_id_roundtrip (out : LexSlot.CreateSlotOutput) (id : String)
    (hok : LexSlot.slotCreateId out = .ok id)
    (hsep : ∀ p ∈ LexSlot.slotCreateIdParts out,
      Flex.resourceIdSeparatorChar ∉ p.toList) :
    LexSlot.slotCreateId out =
      Flex.FlattenResourceId
        [LexSlot.awsToString out.botId, LexSlot.awsToString out.botVersion,
          LexSlot.awsToString out.intentId, LexSlot.awsToString out.localeId,
          LexSlot.awsToString out.slotId] LexSlot.slotIDPartCount false ∧
    Flex.ExpandResourceId id LexSlot.slotIDPartCount false =
      .ok (LexSlot.slotCreateIdParts out) := by
  constructor
  · rfl
  · exact Flex.expand_flatten_roundtrip _ _ _ (by decide) hok hsep

/-- Witness for C2: a concrete slot with separator-free IDs round-trips. -/
theorem slot_create_id_roundtrip_witness :
    Flex.ExpandResourceId "B,1,I,L,S" LexSlot.slotIDPartCount false =
      .ok (LexSlot.slotCreateIdParts
        ⟨some "B", some "1", some "I", some "L", some "S"⟩) :=
  (slot_create_id_roundtrip ⟨some "B", some "1", some "I", some "L", some "S"⟩
    "B,1,I,L,S" rfl (by decide)).2

/-- Counterexample for C2 as stated: when a part contains the separator
(here BotId `"a,b"`), the Create handler still produces an ID, but
`ExpandResourceId` with part count 5 refuses it instead of returning the
five parts. -/
theorem slot_create_id_roundtrip_fails_on_separator :
    LexSlot.slotCreateId ⟨some "a,b", some "1", some "i", some "l", some "s"⟩ =
      .ok "a,b,1,i,l,s" ∧
    Flex.ExpandResourceId "a,b,1,i,l,s" LexSlot.slotIDPartCount false =
      .error "unexpected number of ID parts" := by
  exact ⟨rfl, rfl⟩

/-- Counterexample for C4 as stated: not every resource file registers
all four CRUD handlers — the Macie organization admin account resource
sets no update handler. -/
theorem crud_registration_claim_false :
    ¬ (Macie.organizationAdminAccountHandlers.allCrud ∧
        LexSlot.slotHandlers.allCrud ∧
        Grafana.samlConfigurationHandlers.allCrud) := by
  decide

/-- C4 (amended): the Lex V2 slot and Grafana workspace SAML
configuration resources register Create, Read, Update and Delete
handlers; the Macie organization admin account resource registers
Create, Read and Delete but no Update handler (its only attribute is
ForceNew). -/
theorem crud_handlers_registration :
    LexSlot.slotHandlers.allCrud ∧
    Grafana.samlConfigurationHandlers.allCrud ∧
    Macie.organizationAdminAccountHandlers.hasCreate = true ∧
    Macie.organizationAdminAccountHandlers.hasRead = true ∧
    Macie.organizationAdminAccountHandlers.hasDelete = true ∧
    Macie.organizationAdminAccountHandlers.hasUpdate = false := by
  decide

/-- C5 (amended): the Grafana SAML configuration upsert reaches its
trailing Read (the only path that can return success) only after calling
`waitWorkspaceSamlConfigurationCreated`, and a wait failure is returned
as the handler's error; the delete returns success only after calling
`waitWorkspaceSamlConfigurationDeleted`; the Lex V2 slot Create, by
contrast, issues only the single `CreateSlot` call — it never polls the
created slot before writing state and returning. -/
theorem grafana_waits_slot_create_does_not :
    (∀ isNew cfg findW updateResp waitResp findS r,
      (Grafana.samlConfigurationUpsert isNew cfg findW updateResp waitResp
          findS).2 = .readResult r →
      (Grafana.samlConfigurationUpsert isNew cfg findW updateResp waitResp
          findS).1 =
        [.findWorkspaceByID cfg.workspaceId,
          .updateWorkspaceAuthentication true,
          .waitWorkspaceSamlConfigurationCreated cfg.workspaceId,
          .findSamlConfigurationByID cfg.workspaceId]) ∧
    (∀ isNew cfg w e findS,
      (Grafana.samlConfigurationUpsert isNew cfg (.ok w) none (some e)
          findS).2 = .err e) ∧
    (∀ id findW updateResp waitResp,
      (Grafana.samlConfigurationDelete id findW updateResp waitResp).2 =
          .ok →
      (Grafana.samlConfigurationDelete id findW updateResp waitResp).1 =
        [.findWorkspaceByID id, .updateWorkspaceAuthentication false,
          .waitWorkspaceSamlConfigurationDeleted id]) ∧
    (∀ plan resp,
      (LexSlot.slotCreate plan resp).1 =
        [LexSlot.LexCall.createSlot (LexSlot.awsToString plan.name)]) := by
  refine ⟨?_, ?_, ?_, ?_⟩
  · intro isNew cfg findW updateResp waitResp findS r h
    cases findW with
    | error e =>
      simp only [Grafana.samlConfigurationUpsert] at h
      split at h <;> simp at h
    | ok w =>
      cases updateResp with
      | some e => simp [Grafana.samlConfigurationUpsert] at h
      | none =>
        cases waitResp with
        | some e => simp [Grafana.samlConfigurationUpsert] at h
        | none => simp [Grafana.samlConfigurationUpsert]
  · intro isNew cfg w e findS
    rfl
  · intro id findW updateResp waitResp h
    cases findW with
    | error e => simp [Grafana.samlConfigurationDelete] at h
    | ok w =>
      cases updateResp with
      | some e => simp [Grafana.samlConfigurationDelete] at h
      | none =>
        cases waitResp with
        | some e => simp [Grafana.samlConfigurationDelete] at h
        | none => simp [Grafana.samlConfigurationDelete]
  · intro plan resp
    cases resp with
    | err e => rfl
    | emptyOutput => rfl
    | ok out =>
      cases h : LexSlot.slotCreateId out <;>
        simp [LexSlot.slotCreate, h]

/-- Witness for C5: a concrete successful upsert run issued the wait call
before its trailing Read. -/
theorem grafana_waits_witness :
    (Grafana.samlConfigurationUpsert true
        ⟨"W1", ["ed"], none, none, none, none, none, none, none, none⟩
        (.ok ⟨["SAML"]⟩) none none (.error .notFound)).1 =
      [.findWorkspaceByID "W1", .updateWorkspaceAuthentication true,
        .waitWorkspaceSamlConfigurationCreated "W1",
        .findSamlConfigurationByID "W1"] :=
  grafana_waits_slot_create_does_not.1 true
    ⟨"W1", ["ed"], none, none, none, none, none, none, none, none⟩
    (.ok ⟨["SAML"]⟩) none none (.error .notFound) (.err .notFound) rfl

/-- Counterexample for C5 as stated: a concrete successful Lex V2 slot
Create run writes the plan (with the packed ID) to state while its only
AWS call is `CreateSlot` — no polling wait precedes the state write. -/
theorem slot_create_does_not_wait :
    (LexSlot.slotCreate
        ⟨none, none, none, none, none, none, none, some "n", none, none, none⟩
        (.ok ⟨some "B", some "1", some "I", some "L", some "S"⟩)).1 =
      [LexSlot.LexCall.createSlot "n"] ∧
    (LexSlot.slotCreate
        ⟨none, none, none, none, none, none, none, some "n", none, none, none⟩
        (.ok ⟨some "B", some "1", some "I", some "L", some "S"⟩)).2 =
      .ok ⟨none, none, none, some "B,1,I,L,S", none, none, none, some "n",
        none, none, none⟩ := by
  exact ⟨rfl, rfl⟩

/-- C3 (code bug): `resourceSlot.Delete` never expands the stored
composite ID — it copies the whole ID into every one of the five
`DeleteSlotInput` fields, while the resource's own `findSlotByID` parses
the very same ID into its five components. -/
theorem slot_delete_sends_composite_id :
    LexSlot.slotDeleteInput "BID,BVER,IID,LID,SID" =
      { botId := "BID,BVER,IID,LID,SID", botVersion := "BID,BVER,IID,LID,SID",
        intentId := "BID,BVER,IID,LID,SID", localeId := "BID,BVER,IID,LID,SID",
        slotId := "BID,BVER,IID,LID,SID" } ∧
    LexSlot.findSlotByIDInput "BID,BVER,IID,LID,SID" =
      .ok { botId := "BID", botVersion := "BVER", intentId := "IID",
            localeId := "LID", slotId := "SID" } ∧
    (LexSlot.slotDeleteInput "BID,BVER,IID,LID,SID").botId ≠ "BID" := by
  refine ⟨rfl, rfl, ?_⟩
  decide

end TfAws
